import Mathlib

/-!
Verification of the RAG retrieval pipeline (src/rag/retriever.py, src/rag/utils.py).

The Python source is shallowly embedded: pure fragments become Lean functions over
String / Nat / Int / ℚ; Python floats are modelled as rationals; fallible code
returns Except; external collaborators (the Pinecone embedding service, scipy cdist,
the bm25s retrieval library, nltk sent_tokenize, the litellm tokenizer, tree-sitter
parsers, md5) are modelled as explicit function parameters or as inputs holding the
collaborator's response, since only their outputs flow through the repository code.
-/

namespace Rag

/- ### Python option/truthiness helpers

`top_k : int = None` parameters are `Option ℤ`.  `if top_k:` tests Python
truthiness: `None` and `0` are falsy.  `top_k == top_n` is Python `==`, under
which `None == None` is `True` and `None == <int>` is `False`. -/

def pyTruthy : Option ℤ → Bool
  | none => false
  | some v => v != 0

def pyEqOpt : Option ℤ → Option ℤ → Bool
  | none, none => true
  | some a, some b => a == b
  | _, _ => false

/- ### top_k / top_n derivation (RetrieverWithReranker.invoke, retriever.py:419-443)

Embeds the four-way branch at the top of `invoke`:

    if top_k and not top_n:   top_n = top_k; top_k = top_k * 2
    elif top_n and not top_k: top_k = top_n * 2
    elif top_k == top_n:      top_k = top_k * 2
    else:                     top_k = 10; top_n = 5

The returned pair is (top_k, top_n) after the branch, i.e. (breadth, final).
When both arguments are None, the third branch is taken (None == None) and
`top_k * 2` is `None * 2`, a Python TypeError, modelled as `Except.error`. -/

def invoke_derive (top_k top_n : Option ℤ) : Except String (ℤ × ℤ) :=
  if pyTruthy top_k && !pyTruthy top_n then
    match top_k with
    | some k => Except.ok (k * 2, k)
    | none => Except.error "unreachable: pyTruthy none is false"
  else if pyTruthy top_n && !pyTruthy top_k then
    match top_n with
    | some n => Except.ok (n * 2, n)
    | none => Except.error "unreachable: pyTruthy none is false"
  else if pyEqOpt top_k top_n then
    match top_k, top_n with
    | some k, some n => Except.ok (k * 2, n)
    | _, _ => Except.error "TypeError: unsupported operand type(s) for *: NoneType and int"
  else
    Except.ok (10, 5)

/- The identical branch duplicated at the top of HybridRetrieverWithReranker.invoke
(retriever.py:451-462). -/

def hybrid_invoke_derive (top_k top_n : Option ℤ) : Except String (ℤ × ℤ) :=
  if pyTruthy top_k && !pyTruthy top_n then
    match top_k with
    | some k => Except.ok (k * 2, k)
    | none => Except.error "unreachable: pyTruthy none is false"
  else if pyTruthy top_n && !pyTruthy top_k then
    match top_n with
    | some n => Except.ok (n * 2, n)
    | none => Except.error "unreachable: pyTruthy none is false"
  else if pyEqOpt top_k top_n then
    match top_k, top_n with
    | some k, some n => Except.ok (k * 2, n)
    | _, _ => Except.error "TypeError: unsupported operand type(s) for *: NoneType and int"
  else
    Except.ok (10, 5)

/- ### batch_embed (retriever.py:158-197)

`for i in range(0, len(docs), batch_size)` iterates over a fixed arithmetic
progression of start indices; the loop body's `i -= batch_size; continue` in the
rate-limit handler rebinds the local `i`, but the next iteration reassigns `i`
from the range iterator, so the decrement has no effect on which batches run.

The embedding provider `pc.inference.embed` is external; it is modelled as a
function from the (0-based) call number and the batch to an outcome, so a retry
of a batch could be told apart from the first attempt.  `time.sleep` calls are
irrelevant to the data flow and not modelled.  The final `np.stack([])` on an
empty list raises ValueError, which is modelled. -/

inductive EmbedOutcome where
  | ok (vecs : List (List ℚ))
  | rateLimitError
  | otherError (msg : String)

/-- Start indices of `range(0, n, step)` for `step > 0` (empty for `step = 0`,
where Python would raise instead). -/
def rangeStep (n step : Nat) : List Nat :=
  (List.range ((n + step - 1) / step)).map (fun j => j * step)

def batch_embed_go (provider : Nat → List String → EmbedOutcome) (docs : List String)
    (batch_size : Nat) :
    List Nat → Nat → List (List ℚ) → Except String (List (List ℚ))
  | [], _, acc => Except.ok acc
  | i :: rest, calls, acc =>
    let batch := (docs.drop i).take batch_size
    match provider calls batch with
    | EmbedOutcome.ok vecs =>
        batch_embed_go provider docs batch_size rest (calls + 1) (acc ++ vecs)
    | EmbedOutcome.rateLimitError =>
        -- time.sleep(60); i -= batch_size; continue  — the decrement is lost when
        -- the for-loop reassigns i from the range iterator, so the batch is skipped
        batch_embed_go provider docs batch_size rest (calls + 1) acc
    | EmbedOutcome.otherError msg => Except.error msg

def batch_embed (provider : Nat → List String → EmbedOutcome) (docs : List String)
    (batch_size : Nat := 25) : Except String (List (List ℚ)) :=
  match batch_embed_go provider docs batch_size (rangeStep docs.length batch_size) 0 [] with
  | Except.ok acc =>
      if acc.isEmpty then Except.error "ValueError: need at least one array to stack"
      else Except.ok acc
  | Except.error msg => Except.error msg

/-- Provider that signals a rate limit on its first call and succeeds afterwards,
embedding each text as the vector [1]. -/
def providerRateLimitOnce : Nat → List String → EmbedOutcome := fun calls batch =>
  if calls = 0 then EmbedOutcome.rateLimitError
  else EmbedOutcome.ok (batch.map (fun _ => [1]))

/-- Claim C1: the (breadth, final) derivation in both invoke methods follows the
spec table.  Three of the four rows hold: top_k alone gives (2k, k), top_n alone
gives (2n, n), both equal gives (2k, k) — in particular top_k=5 alone gives
(10, 5) and top_k=top_n=6 gives (12, 6).  The fourth row fails: with neither
argument given, Python's None == None sends control into the `top_k == top_n`
branch and `top_k * 2` raises TypeError, so the (10, 5) defaults are never
reached for the no-arguments case.  This theorem records the code's actual
behaviour on all four rows of the table, exhibiting the failing row. -/
theorem c1_derivation_table :
    invoke_derive (some 5) none = Except.ok (10, 5) ∧
    invoke_derive none (some 7) = Except.ok (14, 7) ∧
    invoke_derive (some 6) (some 6) = Except.ok (12, 6) ∧
    invoke_derive none none =
      Except.error "TypeError: unsupported operand type(s) for *: NoneType and int" ∧
    hybrid_invoke_derive (some 5) none = Except.ok (10, 5) ∧
    hybrid_invoke_derive none (some 7) = Except.ok (14, 7) ∧
    hybrid_invoke_derive (some 6) (some 6) = Except.ok (12, 6) ∧
    hybrid_invoke_derive none none =
      Except.error "TypeError: unsupported operand type(s) for *: NoneType and int" := by
  refine ⟨rfl, rfl, rfl, rfl, rfl, rfl, rfl, rfl⟩

/-- Claim C2, counter-evidence: on a rate-limit signal, `batch_embed` does NOT
retry the batch — `i -= batch_size; continue` is overwritten by the range
iterator, so the batch is silently skipped.  With docs ["a","b"], batch_size 1
and a provider that rate-limits the first call and then succeeds, the result
holds a single embedding (the one for "b"); the batch ["a"] is never embedded
and the provider is never called on it again.  A non-rate-limit failure does
propagate immediately, as the claim says. -/
theorem c2_batch_embed_rate_limit_skips_batch :
    batch_embed providerRateLimitOnce ["a", "b"] 1 = Except.ok [[1]] ∧
    batch_embed (fun _ _ => EmbedOutcome.otherError "boom") ["a", "b"] 1 =
      Except.error "boom" := by
  exact ⟨rfl, rfl⟩

/-- Claim C6, counterexample: with top_k=3, top_n=8 (both given, top_k < top_n)
neither invoke raises a validation error; both silently fall into the defaults
branch and return breadth 10, final 5, ignoring the caller's values. -/
theorem c6_counterexample_no_rejection :
    invoke_derive (some 3) (some 8) = Except.ok (10, 5) ∧
    hybrid_invoke_derive (some 3) (some 8) = Except.ok (10, 5) := by
  exact ⟨rfl, rfl⟩

/-- Claim C6, amended: when top_k and top_n are both given, nonzero and unequal
(in particular top_k < top_n), the request is not rejected; the code silently
substitutes the defaults breadth = 10, final = 5 before calling the backend. -/
theorem c6_amended_silent_defaults (k n : ℤ) (hk : k ≠ 0) (hn : n ≠ 0) (hne : k ≠ n) :
    invoke_derive (some k) (some n) = Except.ok (10, 5) ∧
    hybrid_invoke_derive (some k) (some n) = Except.ok (10, 5) := by
  have h1 : pyTruthy (some k) = true := by simp [pyTruthy, hk]
  have h2 : pyTruthy (some n) = true := by simp [pyTruthy, hn]
  have h3 : pyEqOpt (some k) (some n) = false := by simp [pyEqOpt, hne]
  constructor <;> simp [invoke_derive, hybrid_invoke_derive, h1, h2, h3]

/-- Claim C6 witness: the amended behaviour at top_k=3, top_n=8. -/
theorem c6_amended_witness :
    (3 : ℤ) ≠ 0 ∧ (8 : ℤ) ≠ 0 ∧ (3 : ℤ) ≠ 8 ∧
    (invoke_derive (some 3) (some 8) = Except.ok (10, 5) ∧
     hybrid_invoke_derive (some 3) (some 8) = Except.ok (10, 5)) :=
  ⟨by decide, by decide, by decide, c6_amended_silent_defaults 3 8 (by decide) (by decide) (by decide)⟩

/-- Claim C10: an explicit 0 for top_k (top_n unspecified) or for top_n (top_k
unspecified) is falsy in Python, so every branch guard fails (0 == None is
False) and the defaults breadth = 10, final = 5 are used, for both invoke
methods. -/
theorem c10_zero_treated_as_absent :
    invoke_derive (some 0) none = Except.ok (10, 5) ∧
    invoke_derive none (some 0) = Except.ok (10, 5) ∧
    hybrid_invoke_derive (some 0) none = Except.ok (10, 5) ∧
    hybrid_invoke_derive none (some 0) = Except.ok (10, 5) := by
  exact ⟨rfl, rfl, rfl, rfl⟩

/- ### Hybrid fusion (HybridRetrieverWithReranker.invoke, retriever.py:464-474)

    retrievals = sparse_retrievals + dense_retrievals
    deduped_retrievals = {}
    for doc in retrievals:
        deduped_retrievals[doc["chunk_id"]] = doc
    deduped_retrievals = list(deduped_retrievals.values())

Result dicts are modelled as a chunk_id plus an opaque payload standing for the
remaining fields.  A Python dict keyed by chunk_id, filled by assignment in
iteration order, keeps each key at its first-insertion position and overwrites
the stored value on re-assignment; `dictAssign` is exactly that association-list
semantics. -/

structure RDoc where
  chunk_id : String
  payload : String
deriving DecidableEq, Repr

instance : Inhabited RDoc := ⟨⟨"", ""⟩⟩

/-- `d[doc.chunk_id] = doc` on an insertion-ordered dict represented as a list:
replace in place if the key is present, else append. -/
def dictAssign : List RDoc → RDoc → List RDoc
  | [], d => [d]
  | x :: rest, d =>
    if x.chunk_id = d.chunk_id then d :: rest else x :: dictAssign rest d

def dedupeByChunkId (docs : List RDoc) : List RDoc :=
  docs.foldl dictAssign []

def hybridFuse (sparse_retrievals dense_retrievals : List RDoc) : List RDoc :=
  dedupeByChunkId (sparse_retrievals ++ dense_retrievals)

/-- Number of entries carrying chunk_id `c`. -/
def countId : List RDoc → String → Nat
  | [], _ => 0
  | x :: rest, c => (if x.chunk_id = c then 1 else 0) + countId rest c

/-- The first entry carrying chunk_id `c`, if any (unique in a deduped list). -/
def firstWithId : List RDoc → String → Option RDoc
  | [], _ => none
  | x :: rest, c => if x.chunk_id = c then some x else firstWithId rest c

/-- The last entry carrying chunk_id `c`, if any. -/
def lastWithId : List RDoc → String → Option RDoc
  | [], _ => none
  | x :: rest, c =>
    match lastWithId rest c with
    | some y => some y
    | none => if x.chunk_id = c then some x else none

theorem countId_dictAssign_ne (m : List RDoc) (d : RDoc) (c : String)
    (h : d.chunk_id ≠ c) : countId (dictAssign m d) c = countId m c := by
  induction m with
  | nil => simp [dictAssign, countId, h]
  | cons x rest ih =>
    by_cases hx : x.chunk_id = d.chunk_id
    · have hxc : x.chunk_id ≠ c := fun hc => h (hx.symm.trans hc)
      simp [dictAssign, hx, countId, h, hxc]
    · simp [dictAssign, hx, countId, ih]

theorem countId_dictAssign_le (m : List RDoc) (d : RDoc)
    (hm : ∀ c, countId m c ≤ 1) : ∀ c, countId (dictAssign m d) c ≤ 1 := by
  induction m with
  | nil =>
    intro c
    by_cases h : d.chunk_id = c <;> simp [dictAssign, countId, h]
  | cons x rest ih =>
    have hrest : ∀ c, countId rest c ≤ 1 := by
      intro c
      have hc := hm c
      simp only [countId] at hc
      omega
    intro c
    by_cases hx : x.chunk_id = d.chunk_id
    · by_cases hdc : d.chunk_id = c
      · have hxc : x.chunk_id = c := hx.trans hdc
        have hc := hm c
        simp only [countId, if_pos hxc] at hc
        simp only [dictAssign, if_pos hx, countId, if_pos hdc]
        omega
      · have hc := hrest c
        simp only [dictAssign, if_pos hx, countId, if_neg hdc]
        omega
    · by_cases hxc : x.chunk_id = c
      · have hdc : d.chunk_id ≠ c := fun hd => hx (hxc.trans hd.symm)
        have hc := hm c
        simp only [countId, if_pos hxc] at hc
        simp only [dictAssign, if_neg hx, countId, if_pos hxc]
        rw [countId_dictAssign_ne rest d c hdc]
        omega
      · have hc := ih hrest c
        simp only [dictAssign, if_neg hx, countId, if_neg hxc]
        omega

theorem countId_foldl_le (docs : List RDoc) :
    ∀ m, (∀ c, countId m c ≤ 1) → ∀ c, countId (docs.foldl dictAssign m) c ≤ 1 := by
  induction docs with
  | nil => intro m hm c; exact hm c
  | cons d rest ih =>
    intro m hm c
    exact ih (dictAssign m d) (countId_dictAssign_le m d hm) c

theorem firstWithId_dictAssign (m : List RDoc) (d : RDoc) (c : String) :
    firstWithId (dictAssign m d) c =
      if d.chunk_id = c then some d else firstWithId m c := by
  induction m with
  | nil => by_cases h : d.chunk_id = c <;> simp [dictAssign, firstWithId, h]
  | cons x rest ih =>
    by_cases hx : x.chunk_id = d.chunk_id
    · by_cases hdc : d.chunk_id = c
      · have hxc : x.chunk_id = c := hx.trans hdc
        simp [dictAssign, hx, firstWithId, hdc, hxc]
      · have hxc : x.chunk_id ≠ c := fun hc => hdc (hx.symm.trans hc)
        simp [dictAssign, hx, firstWithId, hdc, hxc]
    · by_cases hxc : x.chunk_id = c
      · have hdc : d.chunk_id ≠ c := fun hd => hx (hxc.trans hd.symm)
        simp [dictAssign, hx, firstWithId, hxc, hdc, Ne.symm hdc]
      · simp [dictAssign, hx, firstWithId, hxc, ih]

theorem firstWithId_foldl (docs : List RDoc) :
    ∀ (m : List RDoc) (c : String),
      firstWithId (docs.foldl dictAssign m) c =
        (lastWithId docs c).or (firstWithId m c) := by
  induction docs with
  | nil => intro m c; simp [lastWithId, Option.or]
  | cons d rest ih =>
    intro m c
    rw [List.foldl_cons, ih, firstWithId_dictAssign]
    simp only [lastWithId]
    cases hlast : lastWithId rest c with
    | some e => simp [Option.or]
    | none => by_cases hdc : d.chunk_id = c <;> simp [Option.or, hdc]

/- Concrete result docs for the worked example: the sparse backend returns
A, B, C and the dense backend returns B, D (by chunk_id); the two copies of B
carry different payloads so the surviving copy is observable. -/

def docA : RDoc := ⟨"A", "sparse"⟩

def docB_sparse : RDoc := ⟨"B", "sparse"⟩

def docC : RDoc := ⟨"C", "sparse"⟩

def docB_dense : RDoc := ⟨"B", "dense"⟩

def docD : RDoc := ⟨"D", "dense"⟩

/-- Claim C4: hybrid fusion concatenates sparse then dense results and
deduplicates by chunk_id with last-occurrence-wins semantics: (i) each chunk_id
occurs at most once in the fused list; (ii) the surviving entry for a chunk_id
is the last occurrence in the concatenation, i.e. the dense copy on a collision;
(iii) on the worked example, sparse {A,B,C} and dense {B,D} fuse to exactly
[A, B, C, D] (size 4) with the dense backend's copy of B surviving. -/
theorem c4_hybrid_fusion_dedupes_last_wins :
    (∀ (docs : List RDoc) (c : String), countId (dedupeByChunkId docs) c ≤ 1) ∧
    (∀ (docs : List RDoc) (c : String),
      firstWithId (dedupeByChunkId docs) c = lastWithId docs c) ∧
    hybridFuse [docA, docB_sparse, docC] [docB_dense, docD] =
      [docA, docB_dense, docC, docD] := by
  refine ⟨?_, ?_, ?_⟩
  · intro docs c
    exact countId_foldl_le docs [] (fun _ => Nat.zero_le 1) c
  · intro docs c
    rw [dedupeByChunkId, firstWithId_foldl]
    simp [firstWithId, Option.or]
    cases lastWithId docs c <;> simp [Option.or]
  · rfl

/- ### chunk_simple (utils.py:101-125)

    sentences = sent_tokenize(content)
    chunks = []; current_chunk = []; current_length = 0
    for sentence in sentences:
        words = tokenize_text(sentence, model=model)
        if current_length + len(words) > chunk_size and current_chunk:
            chunks.append("".join(current_chunk)); current_chunk = []; current_length = 0
        current_chunk.extend(words); current_length += len(words)
    if current_chunk:
        chunks.append("".join(current_chunk))

`sent_tokenize` (nltk) and `tokenize_text` (litellm encode/decode) are external:
the input is taken after sentence splitting as `sentences : List String`, and the
tokenizer is a parameter `tok : String → List String`.  `current_chunk` is the
running list of token strings, `current_length` the running token count. -/

/-- Python's `"".join`. -/
def joinAll (tokens : List String) : String :=
  tokens.foldr (fun a bs => a ++ bs) ""

/-- All tokens of a group of sentences, in order. -/
def tokensOf (tok : String → List String) (g : List String) : List String :=
  (g.map tok).flatten

def chunk_simple_go (tok : String → List String) (chunk_size : Nat) :
    List String → List String → Nat → List String → List String
  | [], current_chunk, _, chunks =>
    if current_chunk ≠ [] then chunks ++ [joinAll current_chunk] else chunks
  | sentence :: rest, current_chunk, current_length, chunks =>
    let words := tok sentence
    if current_length + words.length > chunk_size ∧ current_chunk ≠ [] then
      chunk_simple_go tok chunk_size rest words words.length
        (chunks ++ [joinAll current_chunk])
    else
      chunk_simple_go tok chunk_size rest (current_chunk ++ words)
        (current_length + words.length) chunks

def chunk_simple (tok : String → List String) (sentences : List String)
    (chunk_size : Nat := 300) : List String :=
  chunk_simple_go tok chunk_size sentences [] 0 []

theorem joinAll_append (l₁ l₂ : List String) :
    joinAll (l₁ ++ l₂) = joinAll l₁ ++ joinAll l₂ := by
  induction l₁ with
  | nil => simp [joinAll]
  | cons a l ih =>
    simp only [List.cons_append, joinAll, List.foldr_cons] at ih ⊢
    rw [ih, String.append_assoc]

theorem joinAll_flatten (L : List (List String)) :
    joinAll L.flatten = joinAll (L.map joinAll) := by
  induction L with
  | nil => rfl
  | cons g L ih =>
    simp only [List.flatten_cons, List.map_cons, joinAll_append]
    simp only [joinAll, List.foldr_cons] at ih ⊢
    rw [ih]

theorem tokensOf_nil (tok : String → List String) : tokensOf tok [] = [] := rfl

theorem tokensOf_singleton (tok : String → List String) (s : String) :
    tokensOf tok [s] = tok s := by
  simp [tokensOf]

theorem tokensOf_append (tok : String → List String) (g₁ g₂ : List String) :
    tokensOf tok (g₁ ++ g₂) = tokensOf tok g₁ ++ tokensOf tok g₂ := by
  simp [tokensOf]

theorem tokensOf_ne_nil (tok : String → List String) (pending : List String)
    (hne : ∀ s ∈ pending, tok s ≠ []) (hp : pending ≠ []) :
    tokensOf tok pending ≠ [] := by
  cases pending with
  | nil => exact absurd rfl hp
  | cons p ps =>
    have hp0 : tok p ≠ [] := hne p (List.mem_cons_self p ps)
    simp only [tokensOf, List.map_cons, List.flatten_cons]
    intro h
    exact hp0 (List.append_eq_nil.mp h).1

/-- Invariant proof for the packing loop: the emitted chunks are renderings of a
partition of the processed sentences into non-empty consecutive groups, each
group within budget or a single over-budget sentence. -/
theorem chunk_simple_go_spec (tok : String → List String) (b : Nat) :
    ∀ rest : List String, (∀ s ∈ rest, tok s ≠ []) →
    ∀ pending : List String, (∀ s ∈ pending, tok s ≠ []) →
      (pending ≠ [] → ((tokensOf tok pending).length ≤ b ∨ ∃ s, pending = [s])) →
    ∀ chunks : List String,
      ∃ groups : List (List String),
        groups.flatten = pending ++ rest ∧
        (∀ g ∈ groups, g ≠ []) ∧
        chunk_simple_go tok b rest (tokensOf tok pending)
            (tokensOf tok pending).length chunks
          = chunks ++ groups.map (fun g => joinAll (tokensOf tok g)) ∧
        (∀ g ∈ groups, (tokensOf tok g).length ≤ b ∨
          ∃ s, g = [s] ∧ b < (tok s).length) := by
  intro rest
  induction rest with
  | nil =>
    intro _ pending hpe hpok chunks
    by_cases hp : pending = []
    · subst hp
      exact ⟨[], by simp, by simp, by simp [chunk_simple_go, tokensOf], by simp⟩
    · have hne : tokensOf tok pending ≠ [] := tokensOf_ne_nil tok pending hpe hp
      refine ⟨[pending], by simp, by simp [hp], ?_, ?_⟩
      · simp [chunk_simple_go, hne]
      · intro g hg
        rw [List.mem_singleton] at hg
        subst hg
        rcases hpok hp with h | ⟨s, hs⟩
        · exact Or.inl h
        · subst hs
          by_cases hb : (tok s).length ≤ b
          · exact Or.inl (by rwa [tokensOf_singleton])
          · exact Or.inr ⟨s, rfl, by omega⟩
  | cons s rest ih =>
    intro hrest pending hpe hpok chunks
    have hs_ne : tok s ≠ [] := hrest s (List.mem_cons_self s rest)
    have hrest' : ∀ t ∈ rest, tok t ≠ [] := fun t ht => hrest t (List.mem_cons_of_mem s ht)
    by_cases hcond :
        (tokensOf tok pending).length + (tok s).length > b ∧ tokensOf tok pending ≠ []
    · -- flush: the running chunk is emitted; the new chunk starts with sentence s
      have hpne : pending ≠ [] := by
        intro h
        subst h
        exact hcond.2 rfl
      obtain ⟨groups', hflat, hgne, hgo, hbud⟩ :=
        ih hrest' [s] (by simpa using hs_ne) (fun _ => Or.inr ⟨s, rfl⟩)
          (chunks ++ [joinAll (tokensOf tok pending)])
      rw [tokensOf_singleton] at hgo
      refine ⟨pending :: groups', ?_, ?_, ?_, ?_⟩
      · simp only [List.flatten_cons, hflat]
        simp
      · intro g hg
        rcases List.mem_cons.mp hg with h | h
        · subst h; exact hpne
        · exact hgne g h
      · rw [chunk_simple_go]
        simp only [if_pos hcond]
        rw [hgo]
        simp [List.append_assoc, tokensOf_singleton]
      · intro g hg
        rcases List.mem_cons.mp hg with h | h
        · subst h
          rcases hpok hpne with h' | ⟨t, ht⟩
          · exact Or.inl h'
          · subst ht
            by_cases hb : (tok t).length ≤ b
            · exact Or.inl (by rwa [tokensOf_singleton])
            · exact Or.inr ⟨t, rfl, by omega⟩
        · exact hbud g h
    · -- no flush: sentence s joins the running chunk
      have hpe' : ∀ t ∈ pending ++ [s], tok t ≠ [] := by
        intro t ht
        rcases List.mem_append.mp ht with h | h
        · exact hpe t h
        · rw [List.mem_singleton] at h; subst h; exact hs_ne
      have hpok' : pending ++ [s] ≠ [] →
          ((tokensOf tok (pending ++ [s])).length ≤ b ∨ ∃ t, pending ++ [s] = [t]) := by
        intro _
        by_cases hp : pending = []
        · subst hp
          exact Or.inr ⟨s, rfl⟩
        · have hne : tokensOf tok pending ≠ [] := tokensOf_ne_nil tok pending hpe hp
          have hle : (tokensOf tok pending).length + (tok s).length ≤ b := by
            rcases Nat.lt_or_ge b ((tokensOf tok pending).length + (tok s).length) with h | h
            · exact absurd ⟨h, hne⟩ hcond
            · exact h
          refine Or.inl ?_
          rw [tokensOf_append, List.length_append, tokensOf_singleton]
          exact hle
      obtain ⟨groups, hflat, hgne, hgo, hbud⟩ := ih hrest' (pending ++ [s]) hpe' hpok' chunks
      rw [tokensOf_append, tokensOf_singleton] at hgo
      rw [List.length_append] at hgo
      refine ⟨groups, ?_, hgne, ?_, hbud⟩
      · rw [hflat]
        simp
      · rw [chunk_simple_go]
        simp only [if_neg hcond]
        exact hgo

/-- Claim C5: for any tokenized input and any budget, `chunk_simple` partitions
the sentence list into non-empty consecutive groups: each chunk is the
concatenation of one group's sentences, every sentence lands in exactly one
chunk in original order (concatenating the chunks reproduces the input), and
every group is within the token budget except a group that is a single sentence
whose own token count exceeds the budget.  Hypotheses: each sentence tokenizes
to at least one token and token-wise decoding concatenates back to the sentence
(the round-trip behaviour of the external litellm encode/decode). -/
theorem c5_chunk_simple_packs_all_sentences (tok : String → List String) (b : Nat)
    (sentences : List String)
    (h1 : ∀ s ∈ sentences, tok s ≠ [])
    (h2 : ∀ s ∈ sentences, joinAll (tok s) = s) :
    ∃ groups : List (List String),
      groups.flatten = sentences ∧
      (∀ g ∈ groups, g ≠ []) ∧
      chunk_simple tok sentences b = groups.map joinAll ∧
      joinAll (chunk_simple tok sentences b) = joinAll sentences ∧
      (∀ g ∈ groups, (tokensOf tok g).length ≤ b ∨
        ∃ s, g = [s] ∧ b < (tok s).length) := by
  obtain ⟨groups, hflat, hgne, hgo, hbud⟩ :=
    chunk_simple_go_spec tok b sentences h1 [] (by simp) (by simp) []
  simp only [tokensOf_nil, List.length_nil, List.nil_append] at hflat hgo
  have hmem : ∀ g ∈ groups, ∀ s ∈ g, s ∈ sentences := by
    intro g hg s hs
    rw [← hflat]
    exact List.mem_flatten.mpr ⟨g, hg, hs⟩
  have hrender : ∀ g ∈ groups, joinAll (tokensOf tok g) = joinAll g := by
    intro g hg
    unfold tokensOf
    rw [joinAll_flatten, List.map_map]
    have : g.map (joinAll ∘ tok) = g.map id := by
      apply List.map_congr_left
      intro s hs
      exact h2 s (hmem g hg s hs)
    rw [this, List.map_id]
  have hchunks : chunk_simple tok sentences b = groups.map joinAll := by
    rw [chunk_simple, hgo]
    exact List.map_congr_left hrender
  refine ⟨groups, hflat, hgne, hchunks, ?_, hbud⟩
  rw [hchunks, ← joinAll_flatten, hflat]

/-- Claim C5 witness: the single-token-per-sentence tokenizer on ["ab", "cd"]
with budget 1 satisfies the hypotheses, and the theorem applies. -/
theorem c5_chunk_simple_packs_all_sentences_witness :
    (∀ s ∈ ["ab", "cd"], (fun t : String => [t]) s ≠ []) ∧
    (∀ s ∈ ["ab", "cd"], joinAll ((fun t : String => [t]) s) = s) ∧
    (∃ groups : List (List String),
      groups.flatten = ["ab", "cd"] ∧
      (∀ g ∈ groups, g ≠ []) ∧
      chunk_simple (fun t : String => [t]) ["ab", "cd"] 1 = groups.map joinAll ∧
      joinAll (chunk_simple (fun t : String => [t]) ["ab", "cd"] 1) =
        joinAll ["ab", "cd"] ∧
      (∀ g ∈ groups, (tokensOf (fun t : String => [t]) g).length ≤ 1 ∨
        ∃ s, g = [s] ∧ 1 < ((fun t : String => [t]) s).length)) :=
  ⟨by simp, by intro s _; simp [joinAll],
   c5_chunk_simple_packs_all_sentences (fun t : String => [t]) 1 ["ab", "cd"]
     (by simp) (by intro s _; simp [joinAll])⟩

/- ### Search engines (retriever.py)

Python floats are modelled as ℚ.  `round(x, 4)` is round-to-nearest at 4
decimal digits (Python rounds half to even on floats; the tie-breaking rule is
irrelevant to every statement below, which only uses monotonicity, bounds and
the multiple-of-1/10000 shape of the result). -/

def roundQ4 (q : ℚ) : ℚ :=
  (round (q * 10000) : ℤ) / 10000

/-- A value that has been rounded to 4 decimal digits. -/
def RoundedTo4 (q : ℚ) : Prop :=
  ∃ z : ℤ, q = (z : ℚ) / 10000

theorem roundQ4_rounded (q : ℚ) : RoundedTo4 (roundQ4 q) :=
  ⟨round (q * 10000), rfl⟩

theorem round_mono_q {a c : ℚ} (h : a ≤ c) : round a ≤ round c := by
  rw [round_eq, round_eq]
  exact Int.floor_le_floor (by linarith)

theorem roundQ4_mono {a c : ℚ} (h : a ≤ c) : roundQ4 a ≤ roundQ4 c := by
  unfold roundQ4
  have hr : round (a * 10000) ≤ round (c * 10000) :=
    round_mono_q (by nlinarith)
  have : ((round (a * 10000) : ℤ) : ℚ) ≤ ((round (c * 10000) : ℤ) : ℚ) := by
    exact_mod_cast hr
  linarith

theorem roundQ4_bounds (lo hi : ℤ) (q : ℚ) (hlo : (lo : ℚ) ≤ q) (hhi : q ≤ (hi : ℚ)) :
    (lo : ℚ) ≤ roundQ4 q ∧ roundQ4 q ≤ (hi : ℚ) := by
  unfold roundQ4
  have h1 : round ((lo : ℚ) * 10000) ≤ round (q * 10000) := round_mono_q (by nlinarith)
  have h2 : round (q * 10000) ≤ round ((hi : ℚ) * 10000) := round_mono_q (by nlinarith)
  have hl : round ((lo : ℚ) * 10000) = lo * 10000 := by
    rw [show ((lo : ℚ) * 10000) = ((lo * 10000 : ℤ) : ℚ) by push_cast; ring]
    exact round_intCast _
  have hh : round ((hi : ℚ) * 10000) = hi * 10000 := by
    rw [show ((hi : ℚ) * 10000) = ((hi * 10000 : ℤ) : ℚ) by push_cast; ring]
    exact round_intCast _
  rw [hl] at h1
  rw [hh] at h2
  constructor
  · rw [le_div_iff₀ (by norm_num : (0 : ℚ) < 10000)]
    calc (lo : ℚ) * 10000 = ((lo * 10000 : ℤ) : ℚ) := by push_cast; ring
    _ ≤ ((round (q * 10000) : ℤ) : ℚ) := by exact_mod_cast h1
  · rw [div_le_iff₀ (by norm_num : (0 : ℚ) < 10000)]
    calc ((round (q * 10000) : ℤ) : ℚ) ≤ ((hi * 10000 : ℤ) : ℚ) := by exact_mod_cast h2
    _ = (hi : ℚ) * 10000 := by push_cast; ring

/-- Evaluation helper: `roundQ4 q = z / 10000` whenever `z` is the nearest
integer to `q * 10000`. -/
theorem roundQ4_eq_div (q : ℚ) (z : ℤ) (h1 : (z : ℚ) ≤ q * 10000 + 1 / 2)
    (h2 : q * 10000 + 1 / 2 < z + 1) : roundQ4 q = (z : ℚ) / 10000 := by
  unfold roundQ4
  rw [round_eq, Int.floor_eq_iff.mpr ⟨h1, h2⟩]

/- Error taxonomy for the Python-level failures that `search` can produce.  An
`assert cond, msg` failure is an AssertionError (a deliberate precondition
check); attribute access on None is an unchecked AttributeError crash. -/

inductive PyErr where
  | assertionError (msg : String)
  | attributeError (msg : String)
deriving DecidableEq, Repr

/-- Does the error come from a deliberate precondition check (a Python
`assert`), as opposed to an unchecked crash? -/
def PyErr.isPreconditionCheck : PyErr → Bool
  | PyErr.assertionError _ => true
  | PyErr.attributeError _ => false

structure SearchResult where
  score : ℚ
  doc : RDoc
deriving DecidableEq, Repr

/-- The result list of a successful search ([] on error), for stating
properties of the produced sequence. -/
def resultsOf (r : Except PyErr (List SearchResult)) : List SearchResult :=
  match r with
  | Except.ok res => res
  | Except.error _ => []

/-- `np.argsort` on a distance array: the indices `0 .. d.length - 1` ordered by
ascending distance.  numpy's default quicksort does not guarantee stability;
Mathlib's insertionSort is stable, which is the most favourable reading for the
spec's tie-breaking clause.  `d[i]` is `d.getD i 0`; every produced index is in
range, so the default is never read. -/
def argsortNp (d : List ℚ) : List Nat :=
  List.insertionSort (fun i j => d.getD i 0 ≤ d.getD j 0) (List.range d.length)

/- #### TfidfSearchEngine (retriever.py:26-89)

`__init__` sets `_index = None`, `_data = None`; `fit` fills both.  `search`
asserts both are set, computes scipy cosine distances of the query against the
index (external: supplied as `cosine_distances`), takes
`cosine_distances.argsort()[:top_k]` and emits `round(1 - distance, 4)` plus
the stored document. -/

structure TfidfSearchEngine where
  index : Option Unit
  data : Option (List RDoc)

def TfidfSearchEngine.search (e : TfidfSearchEngine) (cosine_distances : List ℚ)
    (top_k : Nat) : Except PyErr (List SearchResult) :=
  if e.index.isNone then Except.error (PyErr.assertionError "Index is not set")
  else if e.data.isNone then Except.error (PyErr.assertionError "Data is not set")
  else
    let data := e.data.getD []
    let top_k_indices := (argsortNp cosine_distances).take top_k
    Except.ok (top_k_indices.map (fun idx =>
      { score := roundQ4 (1 - cosine_distances.getD idx 0),
        doc := data.getD idx default }))

/- #### BM25SearchEngine (retriever.py:92-155)

`__init__` sets `_index = bm25s.BM25()` (never None, so the first assert always
passes) and `_data = None`.  `search` asserts `_data` is set, then calls the
external `self._index.retrieve(query_tokens, corpus=self._data, k=top_k)`,
whose output — the retrieved docs and their raw BM25 scores, both of length at
most k — is supplied as `results`/`scores`.  The repository code only rounds
each raw score to 4 digits; it performs no normalisation. -/

structure BM25SearchEngine where
  index : Unit
  data : Option (List RDoc)

def BM25SearchEngine.search (e : BM25SearchEngine) (results : List RDoc)
    (scores : List ℚ) : Except PyErr (List SearchResult) :=
  if e.data.isNone then Except.error (PyErr.assertionError "Data is not set")
  else
    Except.ok ((List.range results.length).map (fun idx =>
      { score := roundQ4 (scores.getD idx 0),
        doc := results.getD idx default }))

/- #### DenseSearchEngine (retriever.py:200-272)

`__init__` sets `_index = None`, `_data = None`.  `search` has NO assert: its
first use of the index is `print(f"[search] Index shape: {self._index.shape}")`,
which on an unfitted engine raises AttributeError on None — an unchecked
crash.  After that the flow is the same argsort-of-cosine-distances as TF-IDF
(the query embedding and cdist are external, supplied as `cosine_distances`). -/

structure DenseSearchEngine where
  index : Option Unit
  data : Option (List RDoc)

def DenseSearchEngine.search (e : DenseSearchEngine) (cosine_distances : List ℚ)
    (top_k : Nat) : Except PyErr (List SearchResult) :=
  if e.index.isNone then
    Except.error (PyErr.attributeError "NoneType object has no attribute shape")
  else
    let data := e.data.getD []
    let top_k_indices := (argsortNp cosine_distances).take top_k
    Except.ok (top_k_indices.map (fun idx =>
      { score := roundQ4 (1 - cosine_distances.getD idx 0),
        doc := data.getD idx default }))

/- #### VectorStoreSearchEngine (retriever.py:295-363)

`__init__` sets `_index = None`; `fit`/`load` fill it.  `search` embeds the
query (external) and then calls `self._index.query(...)`: on an unfitted engine
this is attribute access on None — an unchecked AttributeError.  On a fitted
engine the external ANN service returns ordered matches (metadata plus a cosine
score), supplied here as `matches`; the code copies the metadata and rounds the
score to 4 digits. -/

structure VectorStoreSearchEngine where
  index : Option Unit

def VectorStoreSearchEngine.search (e : VectorStoreSearchEngine)
    (query_matches : List (RDoc × ℚ)) : Except PyErr (List SearchResult) :=
  if e.index.isNone then
    Except.error (PyErr.attributeError "NoneType object has no attribute query")
  else
    Except.ok (query_matches.map (fun m => { score := roundQ4 m.2, doc := m.1 }))

theorem roundQ4_ofInt (z : ℤ) : roundQ4 (z : ℚ) = (z : ℚ) := by
  unfold roundQ4
  rw [show ((z : ℚ) * 10000) = ((z * 10000 : ℤ) : ℚ) by push_cast; ring, round_intCast]
  push_cast
  field_simp

theorem roundQ4_mem_unit {q : ℚ} (h0 : 0 ≤ q) (h1 : q ≤ 1) :
    0 ≤ roundQ4 q ∧ roundQ4 q ≤ 1 := by
  have h := roundQ4_bounds 0 1 q (by exact_mod_cast h0) (by exact_mod_cast h1)
  constructor
  · exact_mod_cast h.1
  · exact_mod_cast h.2

theorem roundQ4_mem_pm_one {q : ℚ} (h0 : -1 ≤ q) (h1 : q ≤ 1) :
    -1 ≤ roundQ4 q ∧ roundQ4 q ≤ 1 := by
  have h := roundQ4_bounds (-1) 1 q (by exact_mod_cast h0) (by exact_mod_cast h1)
  constructor
  · exact_mod_cast h.1
  · exact_mod_cast h.2

theorem roundQ4_nonneg {q : ℚ} (h : 0 ≤ q) : 0 ≤ roundQ4 q := by
  have hm := roundQ4_mono h
  have h0 : roundQ4 0 = 0 := by
    have := roundQ4_ofInt 0
    push_cast at this
    exact this
  rwa [h0] at hm

/-- Every index produced by argsort is a valid position in the array. -/
theorem mem_argsortNp {d : List ℚ} {i : Nat} (h : i ∈ argsortNp d) : i < d.length := by
  have hp := List.perm_insertionSort
    (fun i j => d.getD i 0 ≤ d.getD j 0) (List.range d.length)
  exact List.mem_range.mp (hp.mem_iff.mp h)

/-- Claim C7, counterexample: searching an unfitted DenseSearchEngine or
VectorStoreSearchEngine is not rejected by a checked precondition: both crash
with an unchecked AttributeError on the None index (Dense's first index use is
`self._index.shape` in a print; VectorStore's is `self._index.query`), which is
not a precondition-check failure. -/
theorem c7_counterexample_unchecked_crash :
    DenseSearchEngine.search { index := none, data := none } [] 5 =
      Except.error (PyErr.attributeError "NoneType object has no attribute shape") ∧
    VectorStoreSearchEngine.search { index := none } [] =
      Except.error (PyErr.attributeError "NoneType object has no attribute query") ∧
    PyErr.isPreconditionCheck
      (PyErr.attributeError "NoneType object has no attribute shape") = false := by
  exact ⟨rfl, rfl, rfl⟩

/-- Claim C7, amended: search-before-fit is rejected synchronously by an assert
(a checked precondition error) for the TF-IDF and BM25 engines only; the Dense
and VectorStore engines perform no check and fail with an unchecked
AttributeError on the None index.  Engine states are the ones `__init__`
leaves behind (BM25's `_index` is a real object from `__init__`, so only its
`_data` assert can fire). -/
theorem c7_amended_prefit_search_behaviour :
    (∀ (d : List ℚ) (k : Nat),
      TfidfSearchEngine.search { index := none, data := none } d k =
        Except.error (PyErr.assertionError "Index is not set")) ∧
    (∀ (results : List RDoc) (scores : List ℚ),
      BM25SearchEngine.search { index := (), data := none } results scores =
        Except.error (PyErr.assertionError "Data is not set")) ∧
    (∀ (d : List ℚ) (k : Nat),
      DenseSearchEngine.search { index := none, data := none } d k =
        Except.error (PyErr.attributeError "NoneType object has no attribute shape")) ∧
    (∀ (qm : List (RDoc × ℚ)),
      VectorStoreSearchEngine.search { index := none } qm =
        Except.error (PyErr.attributeError "NoneType object has no attribute query")) := by
  exact ⟨fun _ _ => rfl, fun _ _ => rfl, fun _ _ => rfl, fun _ => rfl⟩

/-- Claim C3, counterexample: scores are not confined to [0,1].  The BM25
engine passes the external library's raw BM25 relevance through `round(_, 4)`
with no normalisation: a raw score of 2 (BM25 scores are unbounded above)
yields a returned score of 2 > 1.  The dense engine returns
`round(1 - cosine_distance, 4)`; a cosine distance of 2 (antipodal vectors —
cdist cosine ranges over [0,2]) yields a returned score of -1 < 0. -/
theorem c3_counterexample_scores_outside_unit_interval :
    BM25SearchEngine.search { index := (), data := some [docA] } [docA] [2] =
      Except.ok [{ score := 2, doc := docA }] ∧
    ¬ ((2 : ℚ) ≤ 1) ∧
    DenseSearchEngine.search { index := some (), data := some [docA] } [2] 1 =
      Except.ok [{ score := -1, doc := docA }] ∧
    ¬ ((0 : ℚ) ≤ (-1 : ℚ)) := by
  have h2 : roundQ4 (2 : ℚ) = 2 := by
    have := roundQ4_ofInt 2
    push_cast at this
    exact this
  have hm1 : roundQ4 ((1 : ℚ) - 2) = -1 := by
    have := roundQ4_ofInt (-1)
    push_cast at this
    rw [show (1 : ℚ) - 2 = -1 by norm_num]
    exact this
  refine ⟨?_, by norm_num, ?_, by norm_num⟩
  · simp [BM25SearchEngine.search, List.range_succ, h2]
  · simp [DenseSearchEngine.search, argsortNp, List.range_succ, hm1]

/-- Claim C3, amended: every engine returns scores rounded to 4 decimal digits
and oriented as similarity (higher = better), but the [0,1] bound only holds
where the underlying raw value provides it.  TF-IDF: `round(1 - d, 4) ∈ [0,1]`
whenever the scipy cosine distances lie in [0,1] (they do for nonnegative
TF-IDF vectors).  BM25: the returned score is the raw BM25 relevance rounded to
4 digits — nonnegative when the library's scores are, but not bounded by 1.
Dense/vector-store: the score is a rounded cosine similarity, lying in [-1,1]
when the raw distance lies in [0,2] (resp. the ANN score in [-1,1]). -/
theorem c3_amended_score_shapes :
    (∀ (data : List RDoc) (d : List ℚ) (k : Nat),
      (∀ x ∈ d, 0 ≤ x ∧ x ≤ 1) →
      ∀ r ∈ resultsOf
          (TfidfSearchEngine.search { index := some (), data := some data } d k),
        (0 ≤ r.score ∧ r.score ≤ 1) ∧ RoundedTo4 r.score) ∧
    (∀ (data results : List RDoc) (scores : List ℚ),
      ∀ r ∈ resultsOf
          (BM25SearchEngine.search { index := (), data := some data } results scores),
        RoundedTo4 r.score ∧ ((∀ x ∈ scores, 0 ≤ x) → 0 ≤ r.score)) ∧
    (∀ (data : List RDoc) (d : List ℚ) (k : Nat),
      (∀ x ∈ d, 0 ≤ x ∧ x ≤ 2) →
      ∀ r ∈ resultsOf
          (DenseSearchEngine.search { index := some (), data := some data } d k),
        (-1 ≤ r.score ∧ r.score ≤ 1) ∧ RoundedTo4 r.score) ∧
    (∀ (qm : List (RDoc × ℚ)),
      (∀ m ∈ qm, -1 ≤ m.2 ∧ m.2 ≤ 1) →
      ∀ r ∈ resultsOf (VectorStoreSearchEngine.search { index := some () } qm),
        (-1 ≤ r.score ∧ r.score ≤ 1) ∧ RoundedTo4 r.score) := by
  refine ⟨?_, ?_, ?_, ?_⟩
  · intro data d k hd r hr
    simp only [TfidfSearchEngine.search, Option.isNone_some, Bool.false_eq_true,
      if_false, resultsOf, List.mem_map] at hr
    obtain ⟨idx, hidx, rfl⟩ := hr
    have hlt : idx < d.length := mem_argsortNp (List.mem_of_mem_take hidx)
    have hxmem : d.getD idx 0 ∈ d := by
      rw [List.getD_eq_getElem d 0 hlt]
      exact List.getElem_mem hlt
    obtain ⟨hx0, hx1⟩ := hd _ hxmem
    refine ⟨roundQ4_mem_unit (by linarith) (by linarith), roundQ4_rounded _⟩
  · intro data results scores r hr
    simp only [BM25SearchEngine.search, Option.isNone_some, Bool.false_eq_true,
      if_false, resultsOf, List.mem_map] at hr
    obtain ⟨idx, hidx, rfl⟩ := hr
    refine ⟨roundQ4_rounded _, fun hnn => ?_⟩
    by_cases hlt : idx < scores.length
    · have hxmem : scores.getD idx 0 ∈ scores := by
        rw [List.getD_eq_getElem scores 0 hlt]
        exact List.getElem_mem hlt
      exact roundQ4_nonneg (hnn _ hxmem)
    · rw [List.getD_eq_default scores 0 (le_of_not_lt hlt)]
      exact roundQ4_nonneg le_rfl
  · intro data d k hd r hr
    simp only [DenseSearchEngine.search, Option.isNone_some, Bool.false_eq_true,
      if_false, resultsOf, List.mem_map] at hr
    obtain ⟨idx, hidx, rfl⟩ := hr
    have hlt : idx < d.length := mem_argsortNp (List.mem_of_mem_take hidx)
    have hxmem : d.getD idx 0 ∈ d := by
      rw [List.getD_eq_getElem d 0 hlt]
      exact List.getElem_mem hlt
    obtain ⟨hx0, hx2⟩ := hd _ hxmem
    refine ⟨roundQ4_mem_pm_one (by linarith) (by linarith), roundQ4_rounded _⟩
  · intro qm hq r hr
    simp only [VectorStoreSearchEngine.search, Option.isNone_some, Bool.false_eq_true,
      if_false, resultsOf, List.mem_map] at hr
    obtain ⟨m, hm, rfl⟩ := hr
    obtain ⟨h1, h2⟩ := hq m hm
    exact ⟨roundQ4_mem_pm_one h1 h2, roundQ4_rounded _⟩

/-- Claim C3 witness: the amended theorem applied at concrete fitted engines
with in-range collaborator outputs. -/
theorem c3_amended_score_shapes_witness :
    (∀ x ∈ [(0 : ℚ), 1], 0 ≤ x ∧ x ≤ 1) ∧
    (∀ r ∈ resultsOf
        (TfidfSearchEngine.search { index := some (), data := some [docA] } [0, 1] 2),
      (0 ≤ r.score ∧ r.score ≤ 1) ∧ RoundedTo4 r.score) ∧
    (∀ r ∈ resultsOf
        (BM25SearchEngine.search { index := (), data := some [docA] } [docA] [5]),
      RoundedTo4 r.score ∧ ((∀ x ∈ [(5 : ℚ)], 0 ≤ x) → 0 ≤ r.score)) ∧
    (∀ x ∈ [(0 : ℚ), 2], 0 ≤ x ∧ x ≤ 2) ∧
    (∀ r ∈ resultsOf
        (DenseSearchEngine.search { index := some (), data := some [docA] } [0, 2] 2),
      (-1 ≤ r.score ∧ r.score ≤ 1) ∧ RoundedTo4 r.score) ∧
    (∀ m ∈ [(docA, (1 : ℚ))], -1 ≤ m.2 ∧ m.2 ≤ 1) ∧
    (∀ r ∈ resultsOf (VectorStoreSearchEngine.search { index := some () } [(docA, 1)]),
      (-1 ≤ r.score ∧ r.score ≤ 1) ∧ RoundedTo4 r.score) :=
  ⟨by decide,
   c3_amended_score_shapes.1 [docA] [0, 1] 2 (by decide),
   c3_amended_score_shapes.2.1 [docA] [docA] [5],
   by decide,
   c3_amended_score_shapes.2.2.1 [docA] [0, 2] 2 (by decide),
   by decide,
   c3_amended_score_shapes.2.2.2 [(docA, 1)] (by decide)⟩

/-- argsort produces indices in ascending order of the array values. -/
theorem argsortNp_sorted (d : List ℚ) :
    List.Pairwise (fun i j => d.getD i 0 ≤ d.getD j 0) (argsortNp d) := by
  haveI : IsTotal Nat (fun i j => d.getD i 0 ≤ d.getD j 0) :=
    ⟨fun a b => le_total _ _⟩
  haveI : IsTrans Nat (fun i j => d.getD i 0 ≤ d.getD j 0) :=
    ⟨fun _ _ _ hab hbc => le_trans hab hbc⟩
  exact List.sorted_insertionSort _ (List.range d.length)

/-- The common argsort-then-round pipeline of the TF-IDF and dense engines
emits scores in non-increasing order. -/
theorem argsort_pipeline_nonincreasing (d : List ℚ) (data : List RDoc) (k : Nat) :
    List.Pairwise (fun a b : SearchResult => b.score ≤ a.score)
      (((argsortNp d).take k).map (fun idx =>
        { score := roundQ4 (1 - d.getD idx 0), doc := data.getD idx default })) := by
  rw [List.pairwise_map]
  have h1 : List.Pairwise (fun i j => d.getD i 0 ≤ d.getD j 0) ((argsortNp d).take k) :=
    (argsortNp_sorted d).sublist (List.take_sublist k (argsortNp d))
  exact h1.imp (fun hij => roundQ4_mono (by linarith))

/-- Positions further down a non-increasing, nonnegative score array read back
(with default 0) values no larger than earlier positions. -/
theorem getD_antitone_of_pairwise (scores : List ℚ)
    (hmono : List.Pairwise (fun a b => b ≤ a) scores) (hnn : ∀ x ∈ scores, 0 ≤ x) :
    ∀ i j : Nat, i ≤ j → scores.getD j 0 ≤ scores.getD i 0 := by
  intro i j hij
  by_cases hj : j < scores.length
  · have hi : i < scores.length := Nat.lt_of_le_of_lt hij hj
    rcases Nat.lt_or_eq_of_le hij with hlt | heq
    · have hpg := List.pairwise_iff_get.mp hmono ⟨i, hi⟩ ⟨j, hj⟩ hlt
      rw [List.getD_eq_getElem scores 0 hj, List.getD_eq_getElem scores 0 hi]
      simpa using hpg

    · rw [heq]
  · rw [List.getD_eq_default scores 0 (le_of_not_lt hj)]
    by_cases hi : i < scores.length
    · refine hnn _ ?_
      rw [List.getD_eq_getElem scores 0 hi]
      exact List.getElem_mem hi
    · rw [List.getD_eq_default scores 0 (le_of_not_lt hi)]

/-- Claim C8, counterexample to stable tie-breaking: rounding to 4 decimals
happens *after* sorting by raw distance, so two documents whose raw distances
differ by less than 5e-5 can round to the same score yet appear in
distance-order, not corpus order.  Corpus [docA, docD] with distances
[0.00004, 0.00001]: both scores round to 1.0000, but docD (corpus position 1)
is returned before docA (corpus position 0). -/
theorem c8_counterexample_rounded_ties_break_corpus_order :
    TfidfSearchEngine.search { index := some (), data := some [docA, docD] }
        [1 / 25000, 1 / 100000] 5 =
      Except.ok [{ score := 1, doc := docD }, { score := 1, doc := docA }] ∧
    docA ≠ docD := by
  have e1 : roundQ4 (1 - (100000 : ℚ)⁻¹) = 1 := by
    rw [roundQ4_eq_div _ 10000 (by norm_num) (by norm_num)]
    norm_num
  have e2 : roundQ4 (1 - (25000 : ℚ)⁻¹) = 1 := by
    rw [roundQ4_eq_div _ 10000 (by norm_num) (by norm_num)]
    norm_num
  have harg : argsortNp [(25000 : ℚ)⁻¹, (100000 : ℚ)⁻¹] = [1, 0] := by
    norm_num [argsortNp, List.range_succ, List.insertionSort, List.orderedInsert]
  refine ⟨?_, by decide⟩
  simp [TfidfSearchEngine.search, harg, e1, e2]

/-- Claim C8, amended: every engine's result sequence carries non-increasing
scores — unconditionally for TF-IDF and dense (the code argsorts distances
ascending and rounding is monotone), and for BM25 / vector-store whenever the
external library returns its raw scores in non-increasing order (the repo only
rounds them in order).  The stable-tie clause does not survive: ties in the
*rounded* score need not follow corpus order, since rounding happens after
sorting by raw distance (and numpy's default argsort is not even guaranteed
stable). -/
theorem c8_amended_scores_nonincreasing :
    (∀ (data : List RDoc) (d : List ℚ) (k : Nat),
      List.Pairwise (fun a b : SearchResult => b.score ≤ a.score)
        (resultsOf (TfidfSearchEngine.search { index := some (), data := some data } d k))) ∧
    (∀ (data : List RDoc) (d : List ℚ) (k : Nat),
      List.Pairwise (fun a b : SearchResult => b.score ≤ a.score)
        (resultsOf (DenseSearchEngine.search { index := some (), data := some data } d k))) ∧
    (∀ (data results : List RDoc) (scores : List ℚ),
      List.Pairwise (fun a b : ℚ => b ≤ a) scores → (∀ x ∈ scores, 0 ≤ x) →
      List.Pairwise (fun a b : SearchResult => b.score ≤ a.score)
        (resultsOf (BM25SearchEngine.search { index := (), data := some data } results scores))) ∧
    (∀ (qm : List (RDoc × ℚ)),
      List.Pairwise (fun a b : RDoc × ℚ => b.2 ≤ a.2) qm →
      List.Pairwise (fun a b : SearchResult => b.score ≤ a.score)
        (resultsOf (VectorStoreSearchEngine.search { index := some () } qm))) := by
  refine ⟨?_, ?_, ?_, ?_⟩
  · intro data d k
    simp only [TfidfSearchEngine.search, Option.isNone_some, Bool.false_eq_true,
      if_false, resultsOf]
    exact argsort_pipeline_nonincreasing d data k
  · intro data d k
    simp only [DenseSearchEngine.search, Option.isNone_some, Bool.false_eq_true,
      if_false, resultsOf]
    exact argsort_pipeline_nonincreasing d data k
  · intro data results scores hmono hnn
    simp only [BM25SearchEngine.search, Option.isNone_some, Bool.false_eq_true,
      if_false, resultsOf]
    rw [List.pairwise_map]
    exact (List.pairwise_lt_range results.length).imp
      (fun hij => roundQ4_mono (getD_antitone_of_pairwise scores hmono hnn _ _ (le_of_lt hij)))
  · intro qm hq
    simp only [VectorStoreSearchEngine.search, Option.isNone_some, Bool.false_eq_true,
      if_false, resultsOf]
    rw [List.pairwise_map]
    exact hq.imp (fun hab => roundQ4_mono hab)

/-- Claim C8 witness: the amended theorem applied at concrete engines, with the
BM25 / vector-store ordering hypotheses discharged on concrete score lists. -/
theorem c8_amended_scores_nonincreasing_witness :
    List.Pairwise (fun a b : ℚ => b ≤ a) [5, 3] ∧
    (∀ x ∈ [(5 : ℚ), 3], 0 ≤ x) ∧
    List.Pairwise (fun a b : SearchResult => b.score ≤ a.score)
      (resultsOf (BM25SearchEngine.search { index := (), data := some [docA, docD] }
        [docA, docD] [5, 3])) ∧
    List.Pairwise (fun a b : RDoc × ℚ => b.2 ≤ a.2) [(docA, (1 : ℚ))] ∧
    List.Pairwise (fun a b : SearchResult => b.score ≤ a.score)
      (resultsOf (VectorStoreSearchEngine.search { index := some () } [(docA, 1)])) ∧
    List.Pairwise (fun a b : SearchResult => b.score ≤ a.score)
      (resultsOf (TfidfSearchEngine.search { index := some (), data := some [docA] } [0] 5)) ∧
    List.Pairwise (fun a b : SearchResult => b.score ≤ a.score)
      (resultsOf (DenseSearchEngine.search { index := some (), data := some [docA] } [0] 5)) :=
  ⟨by decide, by decide,
   c8_amended_scores_nonincreasing.2.2.1 [docA, docD] [docA, docD] [5, 3]
     (by decide) (by decide),
   by decide,
   c8_amended_scores_nonincreasing.2.2.2 [(docA, 1)] (by decide),
   c8_amended_scores_nonincreasing.1 [docA] [0] 5,
   c8_amended_scores_nonincreasing.2.1 [docA] [0] 5⟩

/- ### chunk_dataset (utils.py:718-767) and make_id (utils.py:128-129)

    def make_id(content): return md5(content.encode()).hexdigest()

For each doc: `doc_id = make_id(doc["content"])`; the content is chunked by the
file_type-specific chunker; each chunk record copies the doc minus `content`
and gains `chunk`, `text` (the chunk itself for python/notebook, a cleaned
conversion for pdf/markdown), `chunk_id = make_id(chunk)`, `doc_id`, and
`chunk_number = i` (the 0-based enumeration index).

md5 hex digests, the tree-sitter/nbconvert/regex chunkers
(chunk_source_code, chunk_notebook, chunk_pdf, chunk_markdown) and
convert_contents_to_text are deterministic functions of their inputs and are
modelled as function parameters; nothing else (no clock, randomness or ambient
state) flows into the emitted identifiers. -/

structure InDoc where
  content : String
  file_type : String
  metadata : List (String × String)

structure ChunkRec where
  chunk : String
  text : String
  chunk_id : String
  doc_id : String
  chunk_number : Nat
  file_type : String
  metadata : List (String × String)
deriving DecidableEq, Repr

/-- The per-document enumeration loop shared by the four file_type branches:
`for i, chunk in enumerate(chunks): ...` -/
def chunk_records (md5hex : String → String) (textOf : String → String)
    (doc : InDoc) (chunks : List String) : List ChunkRec :=
  chunks.enum.map (fun p =>
    { chunk := p.2, text := textOf p.2, chunk_id := md5hex p.2,
      doc_id := md5hex doc.content, chunk_number := p.1,
      file_type := doc.file_type, metadata := doc.metadata })

def chunk_dataset (md5hex : String → String)
    (chunk_source_code chunk_notebook chunk_pdf chunk_markdown : String → Nat → List String)
    (pdf_to_text md_to_text : String → String)
    (ds : List InDoc) (chunk_size : Nat) : List ChunkRec :=
  (ds.map (fun doc =>
    if doc.file_type = "python" then
      chunk_records md5hex (fun c => c) doc (chunk_source_code doc.content chunk_size)
    else if doc.file_type = "notebook" then
      chunk_records md5hex (fun c => c) doc (chunk_notebook doc.content chunk_size)
    else if doc.file_type = "pdf" then
      chunk_records md5hex pdf_to_text doc (chunk_pdf doc.content chunk_size)
    else
      chunk_records md5hex md_to_text doc (chunk_markdown doc.content chunk_size))).flatten

/-- The identifier triple of a chunk record. -/
def idTriple (r : ChunkRec) : String × String × Nat :=
  (r.doc_id, r.chunk_id, r.chunk_number)

theorem chunk_records_idTriples (md5hex : String → String) (t1 t2 : String → String)
    (doc1 doc2 : InDoc) (chunks : List String) (hc : doc1.content = doc2.content) :
    (chunk_records md5hex t1 doc1 chunks).map idTriple
      = (chunk_records md5hex t2 doc2 chunks).map idTriple := by
  simp [chunk_records, List.map_map, idTriple, Function.comp, hc]

theorem chunk_records_doc_id (md5hex : String → String) (t : String → String)
    (doc : InDoc) (chunks : List String) :
    ∀ r ∈ chunk_records md5hex t doc chunks, r.doc_id = md5hex doc.content := by
  intro r hr
  simp only [chunk_records, List.mem_map] at hr
  obtain ⟨p, _, rfl⟩ := hr
  rfl

/-- Claim C9: chunking is deterministic and id assignment is content-derived.
Two documents with the same content and declared file_type produce identical
sequences of (doc_id, chunk_id, chunk_number) — same ids, same count, same
order — regardless of any other metadata; and every emitted record's doc_id is
the content hash of its source document.  (Running `chunk_dataset` twice on
literally the same input trivially agrees, since the embedding is a pure
function; the two-document form is the substantive two-run statement: the ids
depend only on content and file_type, through deterministic hashing and
chunking collaborators.) -/
theorem c9_chunk_dataset_deterministic (md5hex : String → String)
    (csc cnb cpdf cmd : String → Nat → List String)
    (pdf_to_text md_to_text : String → String)
    (d1 d2 : InDoc) (chunk_size : Nat)
    (hcontent : d1.content = d2.content) (hft : d1.file_type = d2.file_type) :
    (chunk_dataset md5hex csc cnb cpdf cmd pdf_to_text md_to_text [d1] chunk_size).map
        idTriple
      = (chunk_dataset md5hex csc cnb cpdf cmd pdf_to_text md_to_text [d2] chunk_size).map
        idTriple ∧
    (∀ r ∈ chunk_dataset md5hex csc cnb cpdf cmd pdf_to_text md_to_text [d1] chunk_size,
      r.doc_id = md5hex d1.content) := by
  constructor
  · simp only [chunk_dataset, List.map_cons, List.map_nil, List.flatten_cons,
      List.flatten_nil, List.append_nil]
    rw [← hft, ← hcontent]
    by_cases h1 : d1.file_type = "python"
    · rw [if_pos h1, if_pos h1]
      exact chunk_records_idTriples md5hex _ _ d1 d2 _ hcontent
    · rw [if_neg h1, if_neg h1]
      by_cases h2 : d1.file_type = "notebook"
      · rw [if_pos h2, if_pos h2]
        exact chunk_records_idTriples md5hex _ _ d1 d2 _ hcontent
      · rw [if_neg h2, if_neg h2]
        by_cases h3 : d1.file_type = "pdf"
        · rw [if_pos h3, if_pos h3]
          exact chunk_records_idTriples md5hex _ _ d1 d2 _ hcontent
        · rw [if_neg h3, if_neg h3]
          exact chunk_records_idTriples md5hex _ _ d1 d2 _ hcontent
  · intro r hr
    simp only [chunk_dataset, List.map_cons, List.map_nil, List.flatten_cons,
      List.flatten_nil, List.append_nil] at hr
    by_cases h1 : d1.file_type = "python"
    · rw [if_pos h1] at hr
      exact chunk_records_doc_id md5hex _ d1 _ r hr
    · rw [if_neg h1] at hr
      by_cases h2 : d1.file_type = "notebook"
      · rw [if_pos h2] at hr
        exact chunk_records_doc_id md5hex _ d1 _ r hr
      · rw [if_neg h2] at hr
        by_cases h3 : d1.file_type = "pdf"
        · rw [if_pos h3] at hr
          exact chunk_records_doc_id md5hex _ d1 _ r hr
        · rw [if_neg h3] at hr
          exact chunk_records_doc_id md5hex _ d1 _ r hr

/-- Claim C9 witness: two documents with identical content and file_type but
different metadata yield identical id triples, with doc_id the content hash. -/
theorem c9_chunk_dataset_deterministic_witness :
    ({ content := "hello", file_type := "python", metadata := [("source", "a")] } :
        InDoc).content =
      ({ content := "hello", file_type := "python", metadata := [("source", "b")] } :
        InDoc).content ∧
    ({ content := "hello", file_type := "python", metadata := [("source", "a")] } :
        InDoc).file_type =
      ({ content := "hello", file_type := "python", metadata := [("source", "b")] } :
        InDoc).file_type ∧
    ((chunk_dataset (fun s => s) (fun c _ => [c]) (fun c _ => [c]) (fun c _ => [c])
          (fun c _ => [c]) (fun s => s) (fun s => s)
          [{ content := "hello", file_type := "python", metadata := [("source", "a")] }]
          300).map idTriple
        = (chunk_dataset (fun s => s) (fun c _ => [c]) (fun c _ => [c]) (fun c _ => [c])
          (fun c _ => [c]) (fun s => s) (fun s => s)
          [{ content := "hello", file_type := "python", metadata := [("source", "b")] }]
          300).map idTriple ∧
      (∀ r ∈ chunk_dataset (fun s => s) (fun c _ => [c]) (fun c _ => [c]) (fun c _ => [c])
          (fun c _ => [c]) (fun s => s) (fun s => s)
          [{ content := "hello", file_type := "python", metadata := [("source", "a")] }]
          300,
        r.doc_id = "hello")) :=
  ⟨rfl, rfl,
   c9_chunk_dataset_deterministic (fun s => s) (fun c _ => [c]) (fun c _ => [c])
     (fun c _ => [c]) (fun c _ => [c]) (fun s => s) (fun s => s)
     { content := "hello", file_type := "python", metadata := [("source", "a")] }
     { content := "hello", file_type := "python", metadata := [("source", "b")] }
     300 rfl rfl⟩

end Rag
